import Mathlib

/-!
Verification of `periodic_timer.py` (a command-line interval timer).

Modelling conventions (shallow embedding):

* A Python `datetime.timedelta` is an exact number of microseconds; we model it
  as an `Int` (microseconds).  All timedelta arithmetic in the source
  (`+`, `-`, comparison, `max`) is exact integer arithmetic on microseconds.
* Python's built-in `round` on the value `total_seconds()` rounds half to
  even.  For the microsecond-resolution values that arise here the rational
  value `μs / 10^6` is rounded; we model this exactly with
  `roundHalfEvenDiv` (round-half-to-even of an integer quotient).
* `timedelta / int` in Python rounds the result to the nearest microsecond,
  ties to even; modelled by the same `roundHalfEvenDiv`.
* Strings are `List Char`; the anchored regexes `^(\d+)h(?:ours)?$` etc. are
  modelled by taking the maximal digit run and requiring the remainder to be
  one of the finitely many literal unit suffixes (equivalent, since the
  characters following the digit run are never digits, so no backtracking of
  the greedy `\d+` can succeed otherwise).  Likewise the label regex
  `^([a-zA-Z_][a-zA-Z0-9_]+):` takes a word-start character, a maximal
  nonempty word-character run, and a colon (`:` is not a word character, so
  the greedy run is forced).
* `raise ValueError(f"Unable to interpret {value} ...")` is modelled as
  `Except.error value`: the error payload is the token interpolated into the
  message.
* Wall-clock sampling in `_sleep_for` is modelled by a function
  `elapsed : Nat → Int` giving `datetime.now() - period_start` in
  microseconds at the k-th loop-condition check, plus a fuel argument for
  termination; the function returns the list of raw remaining times for
  which a status line was printed.
* The `tkinter.messagebox.askokcancel` answers in `_ask_user_to_continue`
  are modelled as a list of booleans (`true` = OK/continue); running out of
  answers models the loop still being in progress (`Option.none`).
-/

deriving instance DecidableEq for Except

/-- Python `\d` (ASCII digits in the tokens at hand). -/
def isDigitChar (c : Char) : Bool := c.isDigit

/-- Python `[a-zA-Z_]`, the first character of `LABEL_RE`. -/
def isWordStart (c : Char) : Bool := c.isAlpha || c = '_'

/-- Python `[a-zA-Z0-9_]`, the following characters of `LABEL_RE`. -/
def isWordChar (c : Char) : Bool := c.isAlphanum || c = '_'

/-- Split a string into its maximal leading run of characters satisfying `p`
and the rest (the behaviour of a greedy anchored `p+`). -/
def takeWhileSplit (p : Char → Bool) : List Char → List Char × List Char
  | [] => ([], [])
  | c :: cs =>
    if p c then
      let t := takeWhileSplit p cs
      (c :: t.1, t.2)
    else ([], c :: cs)

/-- Python `int` on a (nonempty) digit string. -/
def digitsToNat (ds : List Char) : Nat :=
  ds.foldl (fun acc c => 10 * acc + (c.toNat - '0'.toNat)) 0

/-- The suffixes accepted by `HOURS_RE = ^(\d+)h(?:ours)?$`. -/
def hourSufs : List (List Char) := [['h'], ['h', 'o', 'u', 'r', 's']]

/-- The suffixes accepted by `MINUTES_RE = ^(\d+)m(?:in(?:utes)?)?$`. -/
def minuteSufs : List (List Char) :=
  [['m'], ['m', 'i', 'n'], ['m', 'i', 'n', 'u', 't', 'e', 's']]

/-- The suffixes accepted by `SECONDS_RE = ^(\d+)s(?:ec(?:onds)?)?$`. -/
def secondSufs : List (List Char) :=
  [['s'], ['s', 'e', 'c'], ['s', 'e', 'c', 'o', 'n', 'd', 's']]

/-- Full-string match of one unit regex: a nonempty digit run followed by one
of the family's literal suffixes; returns the numeral's value. -/
def matchUnit (sufs : List (List Char)) (s : List Char) : Option Nat :=
  let t := takeWhileSplit isDigitChar s
  if t.1 ≠ [] ∧ t.2 ∈ sufs then some (digitsToNat t.1) else none

/-- `datetime.timedelta(hours=n)` in microseconds. -/
def tdHours (n : Nat) : Int := (n : Int) * 3600 * 1000000

/-- `datetime.timedelta(minutes=n)` in microseconds. -/
def tdMinutes (n : Nat) : Int := (n : Int) * 60 * 1000000

/-- `datetime.timedelta(seconds=n)` in microseconds. -/
def tdSeconds (n : Nat) : Int := (n : Int) * 1000000

/-- `_interpret_period_duration_value`: try `HOURS_RE`, then `MINUTES_RE`,
then `SECONDS_RE`; on failure raise a `ValueError` naming the value. -/
def interpret_period_duration_value (s : List Char) : Except (List Char) Int :=
  match matchUnit hourSufs s with
  | some n => .ok (tdHours n)
  | none =>
    match matchUnit minuteSufs s with
    | some n => .ok (tdMinutes n)
    | none =>
      match matchUnit secondSufs s with
      | some n => .ok (tdSeconds n)
      | none => .error s

/-- `LABEL_RE.match`: `^([a-zA-Z_][a-zA-Z0-9_]+):`.  Returns the label
(group 1) and the rest of the string after the colon. -/
def matchLabel : List Char → Option (List Char × List Char)
  | [] => none
  | c :: rest =>
    if isWordStart c then
      match takeWhileSplit isWordChar rest with
      | (_, []) => none
      | (ws, d :: after) =>
        if ws ≠ [] ∧ d = ':' then some (c :: ws, after) else none
    else none

/-- A parsed `_PeriodDuration`: optional label and a duration (μs). -/
structure PeriodDuration where
  label : Option (List Char)
  duration : Int
deriving DecidableEq, Repr

/-- `_interpret_period_duration_argument`: strip an optional leading label,
then interpret the unit value. -/
def interpret_period_duration_argument (s : List Char) :
    Except (List Char) PeriodDuration :=
  match matchLabel s with
  | some (lab, value) =>
    (interpret_period_duration_value value).map (fun d => ⟨some lab, d⟩)
  | none =>
    (interpret_period_duration_value s).map (fun d => ⟨none, d⟩)

/-- Python `str.split(",")`: split at every comma, keeping empty pieces. -/
def splitComma : List Char → List (List Char)
  | [] => [[]]
  | c :: rest =>
    if c = ',' then [] :: splitComma rest
    else
      match splitComma rest with
      | t :: ts => (c :: t) :: ts
      | [] => [[c]]

/-- The list comprehension in `_interpret_period_duration_arguments`: parse
each token in order; the first failing token's error aborts the whole parse. -/
def interpretTokens : List (List Char) → Except (List Char) (List PeriodDuration)
  | [] => .ok []
  | t :: ts =>
    match interpret_period_duration_argument t with
    | .error e => .error e
    | .ok p =>
      match interpretTokens ts with
      | .error e => .error e
      | .ok ps => .ok (p :: ps)

/-- `_interpret_period_duration_arguments`. -/
def interpret_period_duration_arguments (s : List Char) :
    Except (List Char) (List PeriodDuration) :=
  interpretTokens (splitComma s)

/-- Round-half-to-even of the rational `a / b` (for `b > 0`), as computed by
Python's `round` on the exact value. -/
def roundHalfEvenDiv (a b : Int) : Int :=
  let q := Int.ediv a b
  let r := Int.emod a b
  if 2 * r < b then q
  else if b < 2 * r then q + 1
  else if Int.emod q 2 = 0 then q else q + 1

/-- `_round_to_nearest_second`: add half a second, take `total_seconds()`,
apply Python `round`, and build a whole-second timedelta (μs). -/
def round_to_nearest_second (t : Int) : Int :=
  1000000 * roundHalfEvenDiv (t + 500000) 1000000

/-- `timedelta / int` (used as `period_duration / 10`): the result is rounded
to the nearest microsecond, ties to even. -/
def timedeltaDivInt (t k : Int) : Int := roundHalfEvenDiv t k

/-- `_more_time`: `max(_MIN_MORE_TIME, _round_to_nearest_second(d / 10))`.
The global `_MIN_MORE_TIME` is passed explicitly. -/
def more_time (minMoreTime d : Int) : Int :=
  max minMoreTime (round_to_nearest_second (timedeltaDivInt d 10))

/-- `_PrintMetaInfo`. -/
structure PrintMetaInfo where
  period_counter : Nat
  period_duration : Int
  period_label : Option (List Char) := none
  is_overtime : Bool := false
deriving DecidableEq, Repr

/-- `_PrintMetaInfo.with_is_overtime`. -/
def PrintMetaInfo.with_is_overtime (p : PrintMetaInfo) : PrintMetaInfo :=
  { period_counter := p.period_counter
    period_duration := p.period_duration
    period_label := p.period_label
    is_overtime := true }

/-- The loop of `_sleep_for`: at the k-th condition check the remaining time
is `duration - elapsed k`; while it is positive one status line is printed
(carrying the rounded remaining time) and the loop continues; it exits at the
first check with remaining ≤ 0.  Returns the raw remaining times of the
printed lines; `fuel` bounds the number of iterations modelled. -/
def sleepForPrints (fuel : Nat) (duration : Int) (elapsed : Nat → Int)
    (k : Nat) : List Int :=
  match fuel with
  | 0 => []
  | f + 1 =>
    let rem := duration - elapsed k
    if 0 < rem then rem :: sleepForPrints f duration elapsed (k + 1) else []

/-- Observable actions of the timer: running a countdown (`_sleep_for`) with
a target duration and display info, or presenting the continuation prompt. -/
inductive TimerEvent
  | countdown (duration : Int) (info : PrintMetaInfo)
  | prompt (info : PrintMetaInfo)
deriving DecidableEq, Repr

/-- Is the event an (overtime) countdown? -/
def TimerEvent.isCountdown : TimerEvent → Bool
  | .countdown _ _ => true
  | .prompt _ => false

/-- The loop of `_ask_user_to_continue`, driven by the successive dialog
answers (`true` = OK/continue, `false` = cancel/more time).  Each iteration
presents the prompt; on `false` it runs one overtime countdown of
`_more_time(period_duration)` with the overtime flag set and re-enters the
loop; on `true` it returns.  `none` models answers running out (the loop
still blocked). -/
def ask_user_to_continue (minMoreTime : Int) (info : PrintMetaInfo) :
    List Bool → Option (List TimerEvent)
  | [] => none
  | a :: rest =>
    if a then some [TimerEvent.prompt info]
    else
      match ask_user_to_continue minMoreTime info rest with
      | some evs =>
        some (TimerEvent.prompt info ::
          TimerEvent.countdown (more_time minMoreTime info.period_duration)
            info.with_is_overtime :: evs)
      | none => none

/-- One iteration of the `while True` loop in `main`: select the period at
`period_counter % len(period_durations)`, count it down (overtime flag
clear), then resolve the continuation prompt. -/
def mainIter (periods : List PeriodDuration) (minMoreTime : Int)
    (counter : Nat) (answers : List Bool) : Option (List TimerEvent) :=
  match periods[counter % periods.length]? with
  | none => none
  | some pd =>
    let info : PrintMetaInfo := ⟨counter, pd.duration, pd.label, false⟩
    match ask_user_to_continue minMoreTime info answers with
    | some evs => some (TimerEvent.countdown pd.duration info :: evs)
    | none => none

/-- The `while True` loop of `main`, one answer list per iteration; the
counter is incremented by one after each completed iteration. -/
def mainRun (periods : List PeriodDuration) (minMoreTime : Int)
    (counter : Nat) : List (List Bool) → Option (List TimerEvent)
  | [] => some []
  | ans :: more =>
    match mainIter periods minMoreTime counter ans with
    | some evs =>
      (mainRun periods minMoreTime (counter + 1) more).map (fun rest => evs ++ rest)
    | none => none

/-! ### Helper lemmas -/

lemma takeWhileSplit_append (p : Char → Bool) (l : List Char) (c : Char)
    (t : List Char) (hl : ∀ x ∈ l, p x = true) (hc : p c = false) :
    takeWhileSplit p (l ++ c :: t) = (l, c :: t) := by
  induction l with
  | nil => simp [takeWhileSplit, hc]
  | cons a as ih =>
    have ha : p a = true := hl a (List.mem_cons_self a as)
    have ih' := ih (fun x hx => hl x (List.mem_cons_of_mem a hx))
    simp [takeWhileSplit, ha, ih']

lemma matchUnit_append (sufs : List (List Char)) (ds : List Char) (c : Char)
    (t : List Char) (hds : ds ≠ []) (hdig : ∀ x ∈ ds, isDigitChar x = true)
    (hc : isDigitChar c = false) :
    matchUnit sufs (ds ++ c :: t) =
      if (c :: t) ∈ sufs then some (digitsToNat ds) else none := by
  unfold matchUnit
  rw [takeWhileSplit_append isDigitChar ds c t hdig hc]
  by_cases hmem : (c :: t) ∈ sufs
  · simp [hds, hmem]
  · simp [hds, hmem]

lemma interpret_value_hours (ds suf : List Char) (hds : ds ≠ [])
    (hdig : ∀ x ∈ ds, isDigitChar x = true) (hsuf : suf ∈ hourSufs) :
    interpret_period_duration_value (ds ++ suf) =
      .ok (tdHours (digitsToNat ds)) := by
  have hcase : suf = ['h'] ∨ suf = ['h', 'o', 'u', 'r', 's'] := by
    simpa [hourSufs] using hsuf
  unfold interpret_period_duration_value
  rcases hcase with h | h <;> subst h <;>
    rw [matchUnit_append hourSufs ds _ _ hds hdig (by decide),
      if_pos (by decide)]

lemma interpret_value_minutes (ds suf : List Char) (hds : ds ≠ [])
    (hdig : ∀ x ∈ ds, isDigitChar x = true) (hsuf : suf ∈ minuteSufs) :
    interpret_period_duration_value (ds ++ suf) =
      .ok (tdMinutes (digitsToNat ds)) := by
  have hcase : suf = ['m'] ∨ suf = ['m', 'i', 'n'] ∨
      suf = ['m', 'i', 'n', 'u', 't', 'e', 's'] := by
    simpa [minuteSufs] using hsuf
  unfold interpret_period_duration_value
  rcases hcase with h | h | h <;> subst h <;>
    rw [matchUnit_append hourSufs ds _ _ hds hdig (by decide),
      if_neg (by decide),
      matchUnit_append minuteSufs ds _ _ hds hdig (by decide),
      if_pos (by decide)]

lemma interpret_value_seconds (ds suf : List Char) (hds : ds ≠ [])
    (hdig : ∀ x ∈ ds, isDigitChar x = true) (hsuf : suf ∈ secondSufs) :
    interpret_period_duration_value (ds ++ suf) =
      .ok (tdSeconds (digitsToNat ds)) := by
  have hcase : suf = ['s'] ∨ suf = ['s', 'e', 'c'] ∨
      suf = ['s', 'e', 'c', 'o', 'n', 'd', 's'] := by
    simpa [secondSufs] using hsuf
  unfold interpret_period_duration_value
  rcases hcase with h | h | h <;> subst h <;>
    rw [matchUnit_append hourSufs ds _ _ hds hdig (by decide),
      if_neg (by decide),
      matchUnit_append minuteSufs ds _ _ hds hdig (by decide),
      if_neg (by decide),
      matchUnit_append secondSufs ds _ _ hds hdig (by decide),
      if_pos (by decide)]

lemma matchLabel_cons (c : Char) (cs v : List Char) (hc : isWordStart c = true)
    (hcs : cs ≠ []) (hw : ∀ x ∈ cs, isWordChar x = true) :
    matchLabel (c :: (cs ++ ':' :: v)) = some (c :: cs, v) := by
  have hsplit := takeWhileSplit_append isWordChar cs ':' v hw (by decide)
  simp only [matchLabel, hc, if_true, hsplit]
  simp [hcs]

lemma interpret_value_nonneg (s : List Char) (d : Int)
    (h : interpret_period_duration_value s = .ok d) : 0 ≤ d := by
  unfold interpret_period_duration_value at h
  cases h1 : matchUnit hourSufs s with
  | some n =>
    simp only [h1] at h
    cases h
    unfold tdHours
    positivity
  | none =>
    simp only [h1] at h
    cases h2 : matchUnit minuteSufs s with
    | some n =>
      simp only [h2] at h
      cases h
      unfold tdMinutes
      positivity
    | none =>
      simp only [h2] at h
      cases h3 : matchUnit secondSufs s with
      | some n =>
        simp only [h3] at h
        cases h
        unfold tdSeconds
        positivity
      | none => simp only [h3] at h; cases h

lemma interpret_argument_nonneg (s : List Char) (p : PeriodDuration)
    (h : interpret_period_duration_argument s = .ok p) : 0 ≤ p.duration := by
  unfold interpret_period_duration_argument at h
  cases hl : matchLabel s with
  | some lv =>
    obtain ⟨lab, value⟩ := lv
    simp only [hl] at h
    cases hv : interpret_period_duration_value value with
    | error e => simp [hv, Except.map] at h
    | ok d =>
      simp only [hv, Except.map] at h
      cases h
      exact interpret_value_nonneg value d hv
  | none =>
    simp only [hl] at h
    cases hv : interpret_period_duration_value s with
    | error e => simp [hv, Except.map] at h
    | ok d =>
      simp only [hv, Except.map] at h
      cases h
      exact interpret_value_nonneg s d hv

lemma interpretTokens_error (ts : List (List Char)) (e : List Char)
    (h : interpretTokens ts = .error e) :
    ∃ t ∈ ts, interpret_period_duration_argument t = .error e := by
  induction ts with
  | nil => simp [interpretTokens] at h
  | cons t ts ih =>
    simp only [interpretTokens] at h
    cases h1 : interpret_period_duration_argument t with
    | error e1 =>
      simp only [h1] at h
      cases h
      exact ⟨t, List.mem_cons_self t ts, h1⟩
    | ok p =>
      simp only [h1] at h
      cases h2 : interpretTokens ts with
      | error e2 =>
        simp only [h2] at h
        cases h
        obtain ⟨u, hu, hue⟩ := ih h2
        exact ⟨u, List.mem_cons_of_mem t hu, hue⟩
      | ok ps => simp only [h2] at h; cases h

lemma round_to_nearest_second_nonneg (t : Int) (h : 0 ≤ t) :
    0 ≤ round_to_nearest_second t := by
  have hq : 0 ≤ Int.ediv (t + 500000) 1000000 :=
    Int.ediv_nonneg (by omega) (by norm_num)
  unfold round_to_nearest_second roundHalfEvenDiv
  dsimp only
  split_ifs <;> omega

/-! ### Claims -/

/-- Claim C1: for every original period duration `d` and configured
`minimum_more_time` `m`, the overtime grant computed on decline equals
`max(m, round_to_nearest_second(d / 10))`; in particular for `d = 300 s`
with `m = 60 s` the grant is 60 s, and for `d = 3600 s` with `m = 60 s` the
grant is 360 s. -/
theorem overtime_grant_formula :
    (∀ minMore d : Int,
        more_time minMore d =
          max minMore (round_to_nearest_second (timedeltaDivInt d 10)))
    ∧ more_time (tdSeconds 60) (tdSeconds 300) = tdSeconds 60
    ∧ more_time (tdSeconds 60) (tdSeconds 3600) = tdSeconds 360 :=
  ⟨fun _ _ => rfl, by decide, by decide⟩

/-- Witness for `overtime_grant_formula` at `m = 60 s`, `d = 300 s`. -/
theorem overtime_grant_formula_witness :
    more_time 60000000 300000000 =
      max 60000000 (round_to_nearest_second (timedeltaDivInt 300000000 10)) :=
  overtime_grant_formula.1 60000000 300000000

/-- Claim C2 is violated by the code: `_round_to_nearest_second` is not
rounding to the nearest whole second.  It computes
`round(t + 0.5 s)` (Python `round`, half to even), so a remaining time of
10.2 s is displayed as 11 s (whose distance from 10.2 s exceeds that of
10 s), and an exact whole-second value of 11 s is displayed as 12 s. -/
theorem round_to_nearest_second_deviates :
    round_to_nearest_second 10200000 = tdSeconds 11
    ∧ (10200000 - tdSeconds 10).natAbs <
        (10200000 - round_to_nearest_second 10200000).natAbs
    ∧ round_to_nearest_second (tdSeconds 11) = tdSeconds 12 :=
  ⟨by decide, by decide, by decide⟩

/-- Claim C3 is false as stated: the grammar `\d+` accepts the magnitude 0,
so the valid token `"0s"` parses successfully to a Period with duration 0,
which is not strictly positive. -/
theorem parsed_duration_not_always_positive :
    ¬ ∀ (s : List Char) (p : PeriodDuration),
        interpret_period_duration_argument s = .ok p → 0 < p.duration := by
  intro h
  have h0 := h ['0', 's'] ⟨none, 0⟩ (by decide)
  exact absurd h0 (by decide)

/-- Claim C3 (amended): every Period produced by the Duration Parser has a
non-negative duration; the bound is tight, since the valid token `"0s"`
yields duration exactly 0. -/
theorem parsed_duration_nonneg :
    (∀ (s : List Char) (p : PeriodDuration),
        interpret_period_duration_argument s = .ok p → 0 ≤ p.duration)
    ∧ interpret_period_duration_argument ['0', 's'] = .ok ⟨none, 0⟩ :=
  ⟨interpret_argument_nonneg, by decide⟩

/-- Witness for `parsed_duration_nonneg` at the token `"work:25min"`. -/
theorem parsed_duration_nonneg_witness :
    0 ≤ (PeriodDuration.mk (some ['w', 'o', 'r', 'k']) 1500000000).duration :=
  parsed_duration_nonneg.1 ['w', 'o', 'r', 'k', ':', '2', '5', 'm', 'i', 'n']
    ⟨some ['w', 'o', 'r', 'k'], 1500000000⟩ (by decide)

/-- Claim C4: every token matching one of the three unit grammars with
magnitude `N` parses to exactly `N * 3600` seconds (hour family),
`N * 60` seconds (minute family), or `N` seconds (second family);
e.g. `"2h"` yields 7200 s, `"90s"` yields 90 s, `"5min"` yields 300 s. -/
theorem unit_grammar_values :
    (∀ ds : List Char, ds ≠ [] → (∀ x ∈ ds, isDigitChar x = true) →
      (∀ suf ∈ hourSufs,
        interpret_period_duration_value (ds ++ suf) =
          .ok (tdSeconds (digitsToNat ds * 3600)))
      ∧ (∀ suf ∈ minuteSufs,
        interpret_period_duration_value (ds ++ suf) =
          .ok (tdSeconds (digitsToNat ds * 60)))
      ∧ (∀ suf ∈ secondSufs,
        interpret_period_duration_value (ds ++ suf) =
          .ok (tdSeconds (digitsToNat ds))))
    ∧ interpret_period_duration_value "2h".toList = .ok (tdSeconds 7200)
    ∧ interpret_period_duration_value "90s".toList = .ok (tdSeconds 90)
    ∧ interpret_period_duration_value "5min".toList = .ok (tdSeconds 300) := by
  refine ⟨fun ds hds hdig => ⟨?_, ?_, ?_⟩, by decide, by decide, by decide⟩
  · intro suf hsuf
    rw [interpret_value_hours ds suf hds hdig hsuf]
    congr 1
  · intro suf hsuf
    rw [interpret_value_minutes ds suf hds hdig hsuf]
    congr 1
  · intro suf hsuf
    rw [interpret_value_seconds ds suf hds hdig hsuf]

/-- Witness for `unit_grammar_values` at the token `"90s"`. -/
theorem unit_grammar_values_witness :
    interpret_period_duration_value (['9', '0'] ++ ['s']) =
      .ok (tdSeconds (digitsToNat ['9', '0'])) :=
  (unit_grammar_values.1 ['9', '0'] (by decide) (by decide)).2.2 ['s'] (by decide)

/-- Claim C5: a token with a leading label (a word-start character followed
by at least one word character and a colon) is parsed by stripping the label
and attaching it to the resulting Period, while a token on which `LABEL_RE`
does not match keeps no label; e.g. `"work:25min"` yields label `"work"`
with 1500 s and `"25min"` yields no label with 1500 s. -/
theorem label_extraction :
    (∀ (c : Char) (cs v : List Char),
        isWordStart c = true → cs ≠ [] → (∀ x ∈ cs, isWordChar x = true) →
        interpret_period_duration_argument (c :: (cs ++ ':' :: v)) =
          (interpret_period_duration_value v).map
            (fun d => ⟨some (c :: cs), d⟩))
    ∧ (∀ s : List Char, matchLabel s = none →
        interpret_period_duration_argument s =
          (interpret_period_duration_value s).map (fun d => ⟨none, d⟩))
    ∧ interpret_period_duration_argument "work:25min".toList =
        .ok ⟨some "work".toList, tdSeconds 1500⟩
    ∧ interpret_period_duration_argument "25min".toList =
        .ok ⟨none, tdSeconds 1500⟩ := by
  refine ⟨?_, ?_, by decide, by decide⟩
  · intro c cs v hc hcs hw
    unfold interpret_period_duration_argument
    rw [matchLabel_cons c cs v hc hcs hw]
  · intro s h
    unfold interpret_period_duration_argument
    rw [h]

/-- Witness for `label_extraction` at the token `"work:25min"`. -/
theorem label_extraction_witness :
    interpret_period_duration_argument
        ('w' :: (['o', 'r', 'k'] ++ ':' :: "25min".toList)) =
      (interpret_period_duration_value "25min".toList).map
        (fun d => ⟨some ('w' :: ['o', 'r', 'k']), d⟩) :=
  label_extraction.1 'w' ['o', 'r', 'k'] "25min".toList
    (by decide) (by decide) (by decide)

/-- Claim C6: a token (after label stripping) matching none of the three
unit grammars makes parsing fail with an error naming exactly that token,
and no Period is produced: any error produced by
`_interpret_period_duration_value` carries the offending token itself, a
failing compound parse fails on one of its comma-separated tokens, and e.g.
`"10x"`, `"abc"` and the empty token are rejected by name. -/
theorem malformed_token_error :
    (∀ s : List Char,
        matchUnit hourSufs s = none → matchUnit minuteSufs s = none →
        matchUnit secondSufs s = none →
        interpret_period_duration_value s = .error s)
    ∧ (∀ s e : List Char, interpret_period_duration_value s = .error e → e = s)
    ∧ (∀ s e : List Char,
        interpret_period_duration_arguments s = .error e →
        ∃ t ∈ splitComma s, interpret_period_duration_argument t = .error e)
    ∧ interpret_period_duration_value "10x".toList = .error "10x".toList
    ∧ interpret_period_duration_value "abc".toList = .error "abc".toList
    ∧ interpret_period_duration_value [] = .error []
    ∧ interpret_period_duration_arguments "5min,10x".toList =
        .error "10x".toList := by
  refine ⟨?_, ?_, ?_, by decide, by decide, by decide, by decide⟩
  · intro s h1 h2 h3
    unfold interpret_period_duration_value
    simp only [h1, h2, h3]
  · intro s e h
    unfold interpret_period_duration_value at h
    cases h1 : matchUnit hourSufs s with
    | some n => simp only [h1] at h; exact Except.noConfusion h
    | none =>
      simp only [h1] at h
      cases h2 : matchUnit minuteSufs s with
      | some n => simp only [h2] at h; exact Except.noConfusion h
      | none =>
        simp only [h2] at h
        cases h3 : matchUnit secondSufs s with
        | some n => simp only [h3] at h; exact Except.noConfusion h
        | none =>
          simp only [h3] at h
          cases h
          rfl
  · intro s e h
    exact interpretTokens_error (splitComma s) e h

/-- Witness for `malformed_token_error` at the token `"10x"`. -/
theorem malformed_token_error_witness :
    interpret_period_duration_value ['1', '0', 'x'] = .error ['1', '0', 'x'] :=
  malformed_token_error.1 ['1', '0', 'x'] (by decide) (by decide) (by decide)

/-- Claim C7: the Cycle Controller selects the period at index
`counter mod sequence_length`: the countdown started by an iteration of
`main` uses exactly that period's duration and label, the selection is
defined for every counter value on a non-empty sequence, and for a
2-element sequence the ordinals `2k` and `2k + 1` select indices 0 and 1
respectively (so 0,1,2,3,… map to 0,1,0,1,…). -/
theorem cycle_controller_indexing :
    (∀ (periods : List PeriodDuration) (minMore : Int) (counter : Nat)
        (answers : List Bool) (evs : List TimerEvent) (pd : PeriodDuration),
        mainIter periods minMore counter answers = some evs →
        periods[counter % periods.length]? = some pd →
        evs.head? = some
          (TimerEvent.countdown pd.duration ⟨counter, pd.duration, pd.label, false⟩))
    ∧ (∀ periods : List PeriodDuration, periods ≠ [] →
        ∀ c : Nat, ∃ pd, periods[c % periods.length]? = some pd)
    ∧ (∀ (p0 p1 : PeriodDuration) (k : Nat),
        ([p0, p1] : List PeriodDuration)[(2 * k) % 2]? = some p0
        ∧ ([p0, p1] : List PeriodDuration)[(2 * k + 1) % 2]? = some p1) := by
  refine ⟨?_, ?_, ?_⟩
  · intro periods minMore counter answers evs pd hiter hsel
    simp only [mainIter, hsel] at hiter
    cases hask : ask_user_to_continue minMore ⟨counter, pd.duration, pd.label, false⟩ answers with
    | none => simp only [hask] at hiter; exact Option.noConfusion hiter
    | some evs1 =>
      simp only [hask] at hiter
      cases hiter
      rfl
  · intro periods h c
    have hlen : 0 < periods.length := List.length_pos.mpr h
    have hlt : c % periods.length < periods.length := Nat.mod_lt _ hlen
    exact ⟨_, List.getElem?_eq_getElem hlt⟩
  · intro p0 p1 k
    have h0 : (2 * k) % 2 = 0 := by omega
    have h1 : (2 * k + 1) % 2 = 1 := by omega
    rw [h0, h1]
    exact ⟨rfl, rfl⟩

/-- Witness for `cycle_controller_indexing`: one full `main` iteration on a
2-element sequence selects the period at index `counter mod 2`. -/
theorem cycle_controller_indexing_witness :
    ([⟨some ['w'], 1500000000⟩, ⟨some ['r'], 300000000⟩] :
        List PeriodDuration)[(2 * 3) % 2]? = some ⟨some ['w'], 1500000000⟩ :=
  (cycle_controller_indexing.2.2 ⟨some ['w'], 1500000000⟩
    ⟨some ['r'], 300000000⟩ 3).1

/-- Claim C8: in every countdown a status line is emitted only while the
computed remaining time is strictly positive (so its displayed rounded
value is never negative), and the loop exits at the first check at which
the remaining time is ≤ 0, emitting nothing. -/
theorem countdown_remaining_positive :
    (∀ (fuel : Nat) (d : Int) (e : Nat → Int) (k : Nat) (r : Int),
        r ∈ sleepForPrints fuel d e k →
        0 < r ∧ 0 ≤ round_to_nearest_second r)
    ∧ (∀ (fuel : Nat) (d : Int) (e : Nat → Int) (k : Nat),
        d - e k ≤ 0 → sleepForPrints (fuel + 1) d e k = []) := by
  constructor
  · intro fuel
    induction fuel with
    | zero => intro d e k r hr; simp [sleepForPrints] at hr
    | succ f ih =>
      intro d e k r hr
      simp only [sleepForPrints] at hr
      by_cases hrem : 0 < d - e k
      · rw [if_pos hrem] at hr
        rcases List.mem_cons.mp hr with h | h
        · subst h
          exact ⟨hrem, round_to_nearest_second_nonneg _ (le_of_lt hrem)⟩
        · exact ih d e (k + 1) r h
      · rw [if_neg hrem] at hr
        simp at hr
  · intro fuel d e k h
    have hrem : ¬ 0 < d - e k := not_lt.mpr h
    simp only [sleepForPrints]
    rw [if_neg hrem]

/-- Witness for `countdown_remaining_positive`: a 2.5 s countdown sampled at
whole seconds prints remaining times 2.5 s, 1.5 s, 0.5 s, each positive with
non-negative rounded display; and a countdown whose first sample already
exceeds the target prints nothing. -/
theorem countdown_remaining_positive_witness :
    (0 < (2500000 : Int) ∧ 0 ≤ round_to_nearest_second 2500000)
    ∧ sleepForPrints 4 2500000 (fun k => (k : Int) * 3000000) 0 = [2500000] := by
  constructor
  · exact countdown_remaining_positive.1 4 2500000
      (fun k => (k : Int) * 1000000) 0 2500000 (by decide)
  · show 2500000 :: sleepForPrints 3 2500000 (fun k => (k : Int) * 3000000) 1 = [2500000]
    rw [countdown_remaining_positive.2 2 2500000
      (fun k => (k : Int) * 3000000) 1 (by decide)]

/-- Claim C9: accepting the continuation prompt returns control immediately
(the cycle's remaining trace is the prompt alone, with no further overtime
countdown) and the cycle counter advances by exactly one (the next `main`
iteration runs with `counter + 1`); each decline runs exactly one overtime
countdown of the computed grant with the overtime flag set and then
re-presents the same prompt, so a completed prompt loop contains exactly one
overtime countdown per decline. -/
theorem acceptance_idempotent_decline_overtime :
    (∀ (m : Int) (info : PrintMetaInfo) (rest : List Bool),
        ask_user_to_continue m info (true :: rest) =
          some [TimerEvent.prompt info])
    ∧ (∀ (m : Int) (info : PrintMetaInfo) (rest : List Bool)
        (evs : List TimerEvent),
        ask_user_to_continue m info rest = some evs →
        ask_user_to_continue m info (false :: rest) =
          some (TimerEvent.prompt info ::
            TimerEvent.countdown (more_time m info.period_duration)
              info.with_is_overtime :: evs))
    ∧ (∀ (m : Int) (info : PrintMetaInfo) (answers : List Bool)
        (evs : List TimerEvent),
        ask_user_to_continue m info answers = some evs →
        evs.head? = some (TimerEvent.prompt info)
        ∧ evs.countP (fun ev => ev.isCountdown) =
            (answers.takeWhile (fun a => !a)).length)
    ∧ (∀ (periods : List PeriodDuration) (m : Int) (counter : Nat)
        (ans : List Bool) (more : List (List Bool)) (evs : List TimerEvent),
        mainIter periods m counter ans = some evs →
        mainRun periods m counter (ans :: more) =
          (mainRun periods m (counter + 1) more).map (fun rest => evs ++ rest)) := by
  refine ⟨fun m info rest => rfl, ?_, ?_, ?_⟩
  · intro m info rest evs h
    simp [ask_user_to_continue, h]
  · intro m info answers evs h
    induction answers generalizing evs with
    | nil => exact Option.noConfusion h
    | cons a rest ih =>
      cases a with
      | true =>
        simp only [ask_user_to_continue, if_pos] at h
        cases h
        constructor
        · rfl
        · simp [List.countP_cons, TimerEvent.isCountdown, List.takeWhile]
      | false =>
        simp only [ask_user_to_continue, Bool.false_eq_true, if_false] at h
        cases hr : ask_user_to_continue m info rest with
        | none => rw [hr] at h; exact Option.noConfusion h
        | some evs1 =>
          rw [hr] at h
          cases h
          obtain ⟨hh, hc⟩ := ih evs1 hr
          constructor
          · rfl
          · simp only [List.countP_cons]
            rw [hc]
            simp [TimerEvent.isCountdown, List.takeWhile]
  · intro periods m counter ans more evs h
    simp only [mainRun, h]

/-- Witness for `acceptance_idempotent_decline_overtime`: accepting at once
yields a trace consisting of the prompt alone. -/
theorem acceptance_idempotent_witness :
    ask_user_to_continue 60000000 ⟨0, 300000000, none, false⟩ [true] =
      some [TimerEvent.prompt ⟨0, 300000000, none, false⟩] :=
  acceptance_idempotent_decline_overtime.1 60000000 ⟨0, 300000000, none, false⟩ []

/-- Claim C10: `_PrintMetaInfo.with_is_overtime` keeps `period_counter`,
`period_duration` and `period_label` unchanged and sets `is_overtime` to
`True`, so the overtime countdown display keeps the same ordinal, target
duration and label as the original countdown. -/
theorem with_is_overtime_frame :
    ∀ p : PrintMetaInfo,
      p.with_is_overtime.period_counter = p.period_counter
      ∧ p.with_is_overtime.period_duration = p.period_duration
      ∧ p.with_is_overtime.period_label = p.period_label
      ∧ p.with_is_overtime.is_overtime = true :=
  fun _ => ⟨rfl, rfl, rfl, rfl⟩

/-- Witness for `with_is_overtime_frame` at a concrete `_PrintMetaInfo`. -/
theorem with_is_overtime_frame_witness :
    (PrintMetaInfo.mk 7 300000000 (some ['w']) false).with_is_overtime.period_counter =
        (PrintMetaInfo.mk 7 300000000 (some ['w']) false).period_counter
    ∧ (PrintMetaInfo.mk 7 300000000 (some ['w']) false).with_is_overtime.period_duration =
        (PrintMetaInfo.mk 7 300000000 (some ['w']) false).period_duration
    ∧ (PrintMetaInfo.mk 7 300000000 (some ['w']) false).with_is_overtime.period_label =
        (PrintMetaInfo.mk 7 300000000 (some ['w']) false).period_label
    ∧ (PrintMetaInfo.mk 7 300000000 (some ['w']) false).with_is_overtime.is_overtime = true :=
  with_is_overtime_frame (PrintMetaInfo.mk 7 300000000 (some ['w']) false)
